import Mathlib

/-!
# Verification of `acme/agents/jax/dqn/learning_lib.py` (SGDLearner)

A shallow embedding of the SGD learner in `learning_lib.py`.  Machine
floats are modelled as exact rationals (`ℚ`), JAX pytrees of parameters
and gradients as flat lists of their numeric leaves (`List ℚ`), and the
pmap replica axis as a `List` of per-replica values.  The opaque
collaborators (network, loss function, optimizer) are abstract function
parameters, exactly as the Python code treats them.
-/

namespace LearningLib

/-- Model of a JAX PRNG key (`jax.random.PRNGKey`).  JAX keys are opaque
values produced either from an integer seed or by `jax.random.split`;
splitting is deterministic and produces fresh keys.  We model the key
space as the free algebra over these generators: `sub k n i` is the
`i`-th of the `n` keys returned by `jax.random.split k n`. -/
inductive RngKey : Type where
  | root : Nat → RngKey
  | sub : RngKey → Nat → Nat → RngKey
deriving DecidableEq, Repr

/-- Depth of a key in the split tree: how many splits produced it. -/
def RngKey.depth : RngKey → Nat
  | RngKey.root _ => 0
  | RngKey.sub k _ _ => k.depth + 1

/-- `jax.random.split key` returning a pair, as used in
`next_rng_key, rng_key = jax.random.split(state.rng_key)`
(line 100 of the source): component 0 is `next_rng_key`, component 1 is
`rng_key` (the key consumed by this invocation). -/
def splitKey (k : RngKey) : RngKey × RngKey :=
  (RngKey.sub k 2 0, RngKey.sub k 2 1)

/-- `LossExtra` (source lines 46-50): metrics dictionary plus optional
updated priorities.  The metrics `Dict[str, jnp.DeviceArray]` is an
insertion-ordered association list, as Python dicts are. -/
structure LossExtra : Type where
  metrics : List (String × ℚ)
  reverb_priorities : Option (List ℚ) := none
deriving DecidableEq, Repr

/-- `TrainingState` (source lines 63-69), for one replica.  `opt_state`
is opaque to the learner, hence the type parameter `O`. -/
structure TrainingState (O : Type) : Type where
  params : List ℚ
  target_params : List ℚ
  opt_state : O
  steps : Nat
  rng_key : RngKey
deriving DecidableEq, Repr

/-- The opaque collaborators and constructor arguments of `SGDLearner`
(source lines 79-90).  `lossGrad` is
`jax.value_and_grad(loss_fn, has_aux=True)` applied to
`(params, target_params, batch, key)`: it returns `((loss, extra), grads)`.
`B` is the opaque per-replica sub-batch type. -/
structure LearnerConfig (B O : Type) : Type where
  networkInit : RngKey → List ℚ
  lossGrad : List ℚ → List ℚ → B → RngKey → (ℚ × LossExtra) × List ℚ
  optUpdate : List ℚ → O → List ℚ × O
  optInitFn : List ℚ → O
  target_update_period : Nat
  num_sgd_steps_per_step : Nat
  numDevices : Nat
  hasReplayClient : Bool

/-- Arithmetic mean of a list of rationals (`jnp.mean` on a vector;
`jax.lax.pmean` over the replica axis is the mean of the per-replica
values). -/
def meanQ (xs : List ℚ) : ℚ := xs.sum / xs.length

/-- Leaf-wise mean of a list of equally-shaped gradient pytrees:
`jax.lax.pmean(grads, axis_name=PMAP_AXIS_NAME)` (source line 108). -/
def meanLeaves (gs : List (List ℚ)) : List ℚ :=
  match gs with
  | [] => []
  | g :: _ => (List.range g.length).map (fun i => meanQ (gs.map (fun h => h.getD i 0)))

/-- `optax.apply_updates(params, updates)`: leaf-wise addition of the
update pytree to the parameter pytree. -/
def apply_updates (params updates : List ℚ) : List ℚ :=
  List.zipWith (fun p u => p + u) params updates

/-- `optax.periodic_update(new_tensors, old_tensors, steps, update_period)`:
returns `new_tensors` when `steps % update_period == 0` and `old_tensors`
otherwise (source lines 117-118). -/
def periodic_update (newParams oldParams : List ℚ) (steps period : Nat) : List ℚ :=
  if steps % period = 0 then newParams else oldParams

/-- Python `dict.update({k: v})` on an insertion-ordered dict: overwrite
the value in place if the key is present, else append the pair. -/
def updateMetric (m : List (String × ℚ)) (k : String) (v : ℚ) : List (String × ℚ) :=
  if m.any (fun p => p.1 = k) then
    m.map (fun p => if p.1 = k then (k, v) else p)
  else m ++ [(k, v)]

/-- Dict lookup. -/
def lookupMetric (m : List (String × ℚ)) (k : String) : Option ℚ :=
  (m.find? (fun p => p.1 = k)).map Prod.snd

/-- The key consumed by one invocation of `sgd_step` on a replica state:
the second output of splitting `state.rng_key` (source line 100). -/
def stepConsumedKey {O : Type} (s : TrainingState O) : RngKey :=
  (splitKey s.rng_key).2

/-- Per-replica raw results of `jax.value_and_grad(self._loss, has_aux=True)`
(source lines 102-104), before any cross-replica reduction: one
`((loss, extra), grads)` per replica. -/
def sgdStepRaw {B O : Type} (cfg : LearnerConfig B O)
    (states : List (TrainingState O)) (batches : List B) :
    List ((ℚ × LossExtra) × List ℚ) :=
  List.zipWith (fun s b => cfg.lossGrad s.params s.target_params b (stepConsumedKey s))
    states batches

/-- `loss = jax.lax.pmean(loss, axis_name=PMAP_AXIS_NAME)` (source line
106): mean of the per-replica losses, identical on every replica. -/
def pmeanLoss {B O : Type} (cfg : LearnerConfig B O)
    (states : List (TrainingState O)) (batches : List B) : ℚ :=
  meanQ ((sgdStepRaw cfg states batches).map (fun r => r.1.1))

/-- `grads = jax.lax.pmean(grads, axis_name=PMAP_AXIS_NAME)` (source line
108): leaf-wise mean of the per-replica gradients, identical on every
replica. -/
def pmeanGrads {B O : Type} (cfg : LearnerConfig B O)
    (states : List (TrainingState O)) (batches : List B) : List ℚ :=
  meanLeaves ((sgdStepRaw cfg states batches).map (fun r => r.2))

/-- One application of the inner `sgd_step` (source lines 98-122) across
all replicas simultaneously (it runs under `jax.pmap`, so the two
`pmean` reductions couple the replicas).  `states` and `batches` are
indexed by replica. -/
def sgd_step {B O : Type} (cfg : LearnerConfig B O)
    (states : List (TrainingState O)) (batches : List B) :
    List (TrainingState O × LossExtra) :=
  let lossBar := pmeanLoss cfg states batches
  let gradsBar := pmeanGrads cfg states batches
  List.zipWith (fun s b =>
    let extra := (cfg.lossGrad s.params s.target_params b (stepConsumedKey s)).1.2
    let upd := cfg.optUpdate gradsBar s.opt_state
    let new_params := apply_updates s.params upd.1
    let extra2 : LossExtra :=
      { extra with metrics := updateMetric extra.metrics "total_loss" lossBar }
    let steps := s.steps + 1
    let target_params :=
      periodic_update new_params s.target_params steps cfg.target_update_period
    (⟨new_params, target_params, upd.2, steps, (splitKey s.rng_key).1⟩, extra2))
    states batches

/-- Modelled from the spec: the left-fold core of
`utils.process_multiple_batches` (§4.4 of the spec; the function lives in
`acme/jax/utils.py`, outside the provided source): apply the step
function once per sub-batch, carrying the state forward and collecting
the per-sub-step `extra` values.  Since the fold runs under `jax.pmap`,
each iteration couples all replicas; `batchesBySubstep` lists, for each
of the K sub-steps, the per-replica sub-batches.  The result pairs the
final per-replica states with, for each replica, its K extras in
sub-step order (the stacking performed by `jax.lax.scan`). -/
def multiStepScan {B O : Type} (cfg : LearnerConfig B O)
    (states : List (TrainingState O)) :
    List (List B) → List (TrainingState O) × List (List LossExtra)
  | [] => (states, states.map (fun _ => []))
  | bs :: rest =>
    let out := sgd_step cfg states bs
    let r := multiStepScan cfg (out.map Prod.fst) rest
    (r.1, List.zipWith (fun oe es => oe.2 :: es) out r.2)

/-- Recursion worker for `postprocessMetrics`: walk the entries of the
first sub-step's dict, pairing each name with the mean of the values at
the same position `j` in every sub-step's dict. -/
def postprocessMetricsAux (ms : List (List (String × ℚ))) :
    Nat → List (String × ℚ) → List (String × ℚ)
  | _, [] => []
  | j, (nm, _) :: tail =>
    (nm, meanQ (ms.filterMap (fun mm => (mm.get? j).map Prod.snd))) ::
      postprocessMetricsAux ms (j + 1) tail

/-- Mean over the stacked metric values for each name:
`jax.tree_util.tree_map(jnp.mean, extra.metrics)` applied to the
`jax.lax.scan`-stacked metrics of one replica (source line 128).  All K
dicts have the same keys in the same order (they come from the same
traced function), so names are taken from the first sub-step and values
are combined positionally. -/
def postprocessMetrics (ms : List (List (String × ℚ))) : List (String × ℚ) :=
  match ms with
  | [] => []
  | m0 :: _ => postprocessMetricsAux ms 0 m0

/-- `jnp.reshape(a, (-1, *a.shape[2:]))` applied to the scan-stacked
priorities of one replica, of shape `(K, batch)` (source lines 125-126):
merge the leading two axes, i.e. concatenate the per-sub-step priority
vectors in sub-step order.  `jax.tree_util.tree_map` over `None` yields
`None`. -/
def stackPriorities (ps : List (Option (List ℚ))) : Option (List ℚ) :=
  let vs := ps.filterMap id
  if vs.isEmpty then none else some vs.flatten

/-- `postprocess_aux` (source lines 124-129), acting on the scan-stacked
extras of one replica. -/
def postprocess_aux (extras : List LossExtra) : LossExtra :=
  { metrics := postprocessMetrics (extras.map (fun e => e.metrics)),
    reverb_priorities := stackPriorities (extras.map (fun e => e.reverb_priorities)) }

/-- `utils.process_multiple_batches(sgd_step, num_sgd_steps_per_step,
postprocess_aux)` composed with `jax.pmap` (source lines 132-135):
run the K-fold scan across all replicas, then postprocess each replica's
stacked extras. -/
def process_multiple_batches {B O : Type} (cfg : LearnerConfig B O)
    (states : List (TrainingState O)) (batchesBySubstep : List (List B)) :
    List (TrainingState O) × List LossExtra :=
  let r := multiStepScan cfg states batchesBySubstep
  (r.1, r.2.map postprocess_aux)

/-- `ReverbUpdate` (source lines 40-43) as enqueued by `step()`: keys and
priorities still carrying the leading replica axis. -/
structure ReverbUpdate : Type where
  keys : List (List Nat)
  priorities : List (List ℚ)
deriving DecidableEq, Repr

/-- One item from the data iterator (`utils.PrefetchingSplit`): `host`
holds the replay keys (replica axis leading, `replicas × (K*batch)`),
`device` the prefetched sample tensors, already sharded per replica and
split into the K sub-batches; we index `device` sub-step-major. -/
structure DataItem (B : Type) : Type where
  host : List (List Nat)
  device : List (List B)

/-- The mutable state of an `SGDLearner`: the replicated training state
(one entry per device) and the `_timestamp` cache (source line 146,
`None` until the first step completes). -/
structure Learner (O : Type) : Type where
  state : List (TrainingState O)
  timestamp : Option ℚ
deriving DecidableEq, Repr

/-- Modelled from the spec: `utils.get_from_first_device` (spec §4.7 and
§6: "returns replica-0 parameters", "takes the state from one designated
replica only (replica 0)"); the function lives in `acme/jax/utils.py`,
outside the provided source.  Taking replica 0 of an empty device list
is a fault, modelled by `none`. -/
def get_from_first_device {α : Type} (xs : List α) : Option α := xs.head?

/-- Modelled from the spec: `utils.replicate_in_all_devices` (spec §4.1
and §4.7: the state "is then broadcast identically to every execution
replica"); the function lives in `acme/jax/utils.py`, outside the
provided source. -/
def replicate_in_all_devices {α : Type} (numDevices : Nat) (x : α) : List α :=
  List.replicate numDevices x

/-- `SGDLearner.__init__`'s construction of the initial replicated
training state (source lines 148-159): split the input key into three,
initialize `params` and `target_params` from the first two, seed the
state with the third, start `steps` at 0, and replicate across all
devices. -/
def initialLearner {B O : Type} (cfg : LearnerConfig B O) (random_key : RngKey) :
    Learner O :=
  let key_params := RngKey.sub random_key 3 0
  let key_target := RngKey.sub random_key 3 1
  let key_state := RngKey.sub random_key 3 2
  let initial_params := cfg.networkInit key_params
  let st : TrainingState O :=
    { params := initial_params,
      target_params := cfg.networkInit key_target,
      opt_state := cfg.optInitFn initial_params,
      steps := 0,
      rng_key := key_state }
  { state := replicate_in_all_devices cfg.numDevices st, timestamp := none }

/-- `update_priorities` (source lines 162-171), the body run by the
async executor: a no-op when no replay client is configured; otherwise
flatten keys and priorities across the replica axis
(`reshape((-1,) + x.shape[2:])`) and issue one `mutate_priorities` call
whose updates map each key to its priority.  The returned value is the
mutation issued to the store (`none` when no call is made). -/
def update_priorities {B O : Type} (cfg : LearnerConfig B O)
    (reverb_update : ReverbUpdate) : Option (List (Nat × ℚ)) :=
  if cfg.hasReplayClient then
    some (List.zip reverb_update.keys.flatten reverb_update.priorities.flatten)
  else none

/-- The per-replica priorities of the pmapped output as one object with
its leading replica axis (`extra.reverb_priorities` as seen by `step()`,
shape `(replicas, K*batch)`); `none` when the loss produced none.  All
replicas have the same pytree structure, so presence is uniform. -/
def replicaPriorities (extras : List LossExtra) : Option (List (List ℚ)) :=
  let vs := extras.filterMap (fun e => e.reverb_priorities)
  if vs.isEmpty then none else some vs

/-- Everything one `SGDLearner.step()` call produces: the new learner
state, the reported throughput, the replica-0 metrics written to the
logger (with `steps_per_second` attached; `none` models the fault of an
empty device list), the `ReverbUpdate` enqueued to the async executor,
and the store mutation the executor's worker issues for it. -/
structure StepResult (O : Type) : Type where
  learner : Learner O
  stepsPerSecond : ℚ
  loggedMetrics : Option (List (String × ℚ))
  enqueuedUpdate : Option ReverbUpdate
  storeMutation : Option (List (Nat × ℚ))
deriving DecidableEq, Repr

/-- `SGDLearner.step()` (source lines 177-206) minus the opaque
counter/logger sinks: run the pmapped multi-batch SGD step, compute
elapsed wall-clock time (`0` when `self._timestamp` is falsy — `None`
before the first completed step, and Python treats `0.0` the same),
report `steps_per_second = K/elapsed` guarded against `elapsed == 0`,
enqueue a `ReverbUpdate` when a replay client is configured and
priorities are present, and record replica-0 metrics.  `now` is the
value of `time.time()`. -/
def learnerStep {B O : Type} (cfg : LearnerConfig B O) (L : Learner O)
    (d : DataItem B) (now : ℚ) : StepResult O :=
  let r := process_multiple_batches cfg L.state d.device
  let elapsed : ℚ :=
    match L.timestamp with
    | none => 0
    | some t => if t = 0 then 0 else now - t
  let enq : Option ReverbUpdate :=
    if cfg.hasReplayClient then
      (replicaPriorities r.2).map (fun ps => { keys := d.host, priorities := ps })
    else none
  let steps_per_sec : ℚ :=
    if elapsed = 0 then 0 else (cfg.num_sgd_steps_per_step : ℚ) / elapsed
  { learner := { state := r.1, timestamp := some now },
    stepsPerSecond := steps_per_sec,
    loggedMetrics := (get_from_first_device r.2).map
      (fun e => updateMetric e.metrics "steps_per_second" steps_per_sec),
    enqueuedUpdate := enq,
    storeMutation := enq.bind (update_priorities cfg) }

/-- Iterate `step()` over a list of `(data, wall-clock time)` items,
collecting every store mutation issued along the way. -/
def runSteps {B O : Type} (cfg : LearnerConfig B O) (L : Learner O) :
    List (DataItem B × ℚ) → Learner O × List (List (Nat × ℚ))
  | [] => (L, [])
  | (d, t) :: rest =>
    let r := learnerStep cfg L d t
    let rec' := runSteps cfg r.learner rest
    (rec'.1, (r.storeMutation.toList) ++ rec'.2)

/-- `SGDLearner.get_variables` (source lines 208-210): return the first
replica of the parameters, as a one-element list; the `names` argument
is not consulted. -/
def get_variables {O : Type} (L : Learner O) (_names : List String) :
    Option (List (List ℚ)) :=
  (get_from_first_device L.state).map (fun s => [s.params])

/-- `SGDLearner.save` (source lines 212-214): the first replica of the
replicated training state. -/
def save {O : Type} (L : Learner O) : Option (TrainingState O) :=
  get_from_first_device L.state

/-- `SGDLearner.restore` (source lines 216-217): replace the replicated
state by the given state broadcast to every device. -/
def restore {B O : Type} (cfg : LearnerConfig B O) (L : Learner O)
    (st : TrainingState O) : Learner O :=
  { L with state := replicate_in_all_devices cfg.numDevices st }

/-- The per-replica states after `t` applications of the inner
`sgd_step`, feeding the step at time `t` the per-replica batches
`sched t`. -/
def statesAfter {B O : Type} (cfg : LearnerConfig B O)
    (states : List (TrainingState O)) (sched : Nat → List B) :
    Nat → List (TrainingState O)
  | 0 => states
  | t + 1 => (sgd_step cfg (statesAfter cfg states sched t) (sched t)).map Prod.fst

/-- Well-formedness of one data item for a learner with `n` devices:
`num_sgd_steps_per_step` sub-batches, each sharded over the `n`
replicas (this is what `jax.pmap` plus the reshape inside
`utils.process_multiple_batches` guarantee for real inputs). -/
def wfData {B O : Type} (cfg : LearnerConfig B O) (n : Nat) (d : DataItem B) : Prop :=
  d.device.length = cfg.num_sgd_steps_per_step ∧ ∀ bs ∈ d.device, bs.length = n

instance {B O : Type} (cfg : LearnerConfig B O) (n : Nat) (d : DataItem B) :
    Decidable (wfData cfg n d) := by
  unfold wfData; infer_instance

/-- The chain of `next_rng_key`s: the key stored in the training state
after `t` internal steps, starting from `k` (each step keeps component 0
of the split, source lines 100 and 121). -/
def nextChain (k : RngKey) : Nat → RngKey
  | 0 => k
  | t + 1 => RngKey.sub (nextChain k t) 2 0

/-- The raw per-replica, per-sub-step metric dicts produced during one
external step, before any reduction: entry `[r][k]` is the metrics dict
replica `r` recorded at sub-step `k` (with `total_loss` already set to
the pmean-averaged loss, as the code records it). -/
def rawMetricsGrid {B O : Type} (cfg : LearnerConfig B O)
    (states : List (TrainingState O)) (device : List (List B)) :
    List (List (List (String × ℚ))) :=
  (multiStepScan cfg states device).2.map (fun r => r.map (fun e => e.metrics))

/-- The metric reduction asserted by the spec (§4.4): "metrics are
reduced by arithmetic mean across both the replica axis and the K
sub-steps, yielding one scalar per metric name" — the arithmetic mean of
the named metric's value over every (replica, sub-step) cell of the raw
grid.  Stated from the spec's words, to be compared with what the code
reports. -/
def specMetricMean (grid : List (List (List (String × ℚ)))) (name : String) : ℚ :=
  meanQ ((grid.map (fun r => r.filterMap (fun mm => lookupMetric mm name))).flatten)

/-! ## Concrete instances used to evaluate the development -/

/-- A concrete learner configuration for evaluating the theorems on
explicit inputs: batches are rationals, the optimizer state is a list,
the loss value is the batch itself with a single-leaf gradient
`params[0] - batch`, and the loss reports one metric `"m"` (the batch
value) and two per-sample priorities `[batch, batch + 1]`. -/
def cfgA : LearnerConfig ℚ (List ℚ) :=
  { networkInit := fun k => [(k.depth : ℚ)],
    lossGrad := fun p _t b _k =>
      ((b, { metrics := [("m", b)],
             reverb_priorities := some [b, b + 1] }), [p.headD 0 - b]),
    optUpdate := fun g o => (g.map (fun x => -x), o),
    optInitFn := fun p => p,
    target_update_period := 2,
    num_sgd_steps_per_step := 1,
    numDevices := 2,
    hasReplayClient := true }

/-- `cfgA` with no replay client configured. -/
def cfgB : LearnerConfig ℚ (List ℚ) :=
  { cfgA with hasReplayClient := false }

/-- A concrete single-replica training state with `steps = 0`. -/
def stA : TrainingState (List ℚ) :=
  { params := [0], target_params := [1], opt_state := [0], steps := 0,
    rng_key := RngKey.root 7 }

/-- A concrete data item for `cfgA` (2 devices, 1 sub-step, 2 keys per
replica). -/
def dItemA : DataItem ℚ := { host := [[1, 2], [3, 4]], device := [[10, 20]] }

/-- A second concrete data item for `cfgA`. -/
def dItemB : DataItem ℚ := { host := [[5, 6], [7, 8]], device := [[30, 40]] }

/-! ## Helper lemmas -/

theorem length_sgd_step {B O : Type} (cfg : LearnerConfig B O)
    (states : List (TrainingState O)) (batches : List B) :
    (sgd_step cfg states batches).length = min states.length batches.length := by
  simp [sgd_step]

theorem get_sgd_step_fst {B O : Type} (cfg : LearnerConfig B O)
    (states : List (TrainingState O)) (batches : List B)
    (i : Nat) (h : i < (sgd_step cfg states batches).length)
    (hs : i < states.length) :
    ((sgd_step cfg states batches).get ⟨i, h⟩).1 =
      { params := apply_updates (states.get ⟨i, hs⟩).params
          (cfg.optUpdate (pmeanGrads cfg states batches)
            (states.get ⟨i, hs⟩).opt_state).1,
        target_params := periodic_update
          (apply_updates (states.get ⟨i, hs⟩).params
            (cfg.optUpdate (pmeanGrads cfg states batches)
              (states.get ⟨i, hs⟩).opt_state).1)
          (states.get ⟨i, hs⟩).target_params
          ((states.get ⟨i, hs⟩).steps + 1) cfg.target_update_period,
        opt_state := (cfg.optUpdate (pmeanGrads cfg states batches)
          (states.get ⟨i, hs⟩).opt_state).2,
        steps := (states.get ⟨i, hs⟩).steps + 1,
        rng_key := (splitKey (states.get ⟨i, hs⟩).rng_key).1 } := by
  simp [sgd_step, List.getElem_zipWith]

theorem mem_sgd_step_steps {B O : Type} (cfg : LearnerConfig B O)
    (states : List (TrainingState O)) (batches : List B) (c : Nat)
    (h : ∀ s ∈ states, s.steps = c) :
    ∀ p ∈ sgd_step cfg states batches, p.1.steps = c + 1 := by
  intro p hp
  rw [List.mem_iff_getElem] at hp
  obtain ⟨i, hi, hp⟩ := hp
  have hs : i < states.length := by
    have := hi; rw [length_sgd_step] at this; omega
  have h1 : ((sgd_step cfg states batches).get ⟨i, hi⟩).1.steps =
      (states.get ⟨i, hs⟩).steps + 1 := by
    rw [get_sgd_step_fst cfg states batches i hi hs]
  simp only [List.get_eq_getElem, hp] at h1
  rw [h1]
  have := h (states.get ⟨i, hs⟩) (List.get_mem states i hs)
  simp only [List.get_eq_getElem] at this
  rw [this]

theorem multiStepScan_state {B O : Type} (cfg : LearnerConfig B O)
    (bss : List (List B)) (states : List (TrainingState O)) (c : Nat)
    (h : ∀ s ∈ states, s.steps = c)
    (hwf : ∀ bs ∈ bss, bs.length = states.length) :
    (multiStepScan cfg states bss).1.length = states.length ∧
      ∀ s ∈ (multiStepScan cfg states bss).1, s.steps = c + bss.length := by
  induction bss generalizing states c with
  | nil => exact ⟨rfl, by simpa [multiStepScan] using h⟩
  | cons bs rest ih =>
    have hlen : (sgd_step cfg states bs).length = states.length := by
      rw [length_sgd_step, hwf bs (List.mem_cons_self bs rest)]; omega
    have hsteps : ∀ s ∈ (sgd_step cfg states bs).map Prod.fst, s.steps = c + 1 := by
      intro s hsm
      obtain ⟨p, hp, rfl⟩ := List.mem_map.mp hsm
      exact mem_sgd_step_steps cfg states bs c h p hp
    have hwf' : ∀ b ∈ rest, b.length = ((sgd_step cfg states bs).map Prod.fst).length := by
      intro b hb
      rw [List.length_map, hlen]
      exact hwf b (List.mem_cons_of_mem bs hb)
    obtain ⟨ih1, ih2⟩ := ih ((sgd_step cfg states bs).map Prod.fst) (c + 1) hsteps hwf'
    refine ⟨?_, ?_⟩
    · simpa [multiStepScan, List.length_map, hlen] using ih1
    · intro s hsm
      have : s.steps = (c + 1) + rest.length := ih2 s (by simpa [multiStepScan] using hsm)
      rw [List.length_cons]; omega

theorem learnerStep_state {B O : Type} (cfg : LearnerConfig B O) (L : Learner O)
    (d : DataItem B) (now : ℚ) (c : Nat)
    (h : ∀ s ∈ L.state, s.steps = c) (hwf : wfData cfg L.state.length d) :
    (learnerStep cfg L d now).learner.state.length = L.state.length ∧
      ∀ s ∈ (learnerStep cfg L d now).learner.state,
        s.steps = c + cfg.num_sgd_steps_per_step := by
  obtain ⟨hK, hsh⟩ := hwf
  have := multiStepScan_state cfg d.device L.state c h hsh
  simpa [learnerStep, process_multiple_batches, hK] using this

theorem runSteps_state {B O : Type} (cfg : LearnerConfig B O)
    (items : List (DataItem B × ℚ)) (L : Learner O) (c : Nat)
    (h : ∀ s ∈ L.state, s.steps = c)
    (hwf : ∀ it ∈ items, wfData cfg L.state.length it.1) :
    (runSteps cfg L items).1.state.length = L.state.length ∧
      ∀ s ∈ (runSteps cfg L items).1.state,
        s.steps = c + items.length * cfg.num_sgd_steps_per_step := by
  induction items generalizing L c with
  | nil => exact ⟨rfl, by simpa [runSteps] using h⟩
  | cons it rest ih =>
    obtain ⟨h1, h2⟩ := learnerStep_state cfg L it.1 it.2 c h
      (hwf it (List.mem_cons_self it rest))
    have hwf' : ∀ i ∈ rest,
        wfData cfg (learnerStep cfg L it.1 it.2).learner.state.length i.1 := by
      intro i hi; rw [h1]; exact hwf i (List.mem_cons_of_mem it hi)
    obtain ⟨ih1, ih2⟩ := ih (learnerStep cfg L it.1 it.2).learner
      (c + cfg.num_sgd_steps_per_step) h2 hwf'
    refine ⟨by simpa [runSteps, h1] using ih1, ?_⟩
    intro s hs
    have := ih2 s (by simpa [runSteps] using hs)
    rw [this, List.length_cons]; ring

theorem initialLearner_state {B O : Type} (cfg : LearnerConfig B O) (key : RngKey) :
    (initialLearner cfg key).state.length = cfg.numDevices ∧
      ∀ s ∈ (initialLearner cfg key).state, s.steps = 0 := by
  refine ⟨by simp [initialLearner, replicate_in_all_devices], ?_⟩
  intro s hs
  have := List.eq_of_mem_replicate (by simpa [initialLearner, replicate_in_all_devices] using hs)
  rw [this]

/-! ## Claims -/

/-- C1: for every positive `target_update_period` P, the `target_params`
produced by an internal `sgd_step` equal the freshly updated `params`
exactly when the post-increment step count is divisible by P, and are
carried over unchanged otherwise; and in the concrete scenario with
P = 2 and three successive internal steps producing the parameter
sequence `params_0, params_1, params_2` from an initial state with
`steps = 0` and an independently initialized target `target_0`, the
`target_params` observed after step 1 are `target_0` and those observed
after step 2 are `params_1` — the params produced by step 2, i.e. sync
occurs exactly at step 2, not step 1. -/
theorem target_sync_exact {B O : Type} :
    (∀ (cfg : LearnerConfig B O) (states : List (TrainingState O)) (batches : List B)
       (i : Nat) (h : i < (sgd_step cfg states batches).length)
       (hs : i < states.length),
       0 < cfg.target_update_period →
       ((sgd_step cfg states batches).get ⟨i, h⟩).1.target_params =
         (if ((states.get ⟨i, hs⟩).steps + 1) % cfg.target_update_period = 0
          then ((sgd_step cfg states batches).get ⟨i, h⟩).1.params
          else (states.get ⟨i, hs⟩).target_params)) ∧
    (∀ (cfg : LearnerConfig B O) (s0 : TrainingState O) (b : Nat → B),
       cfg.target_update_period = 2 → s0.steps = 0 →
       (statesAfter cfg [s0] (fun t => [b t]) 1).map (fun s => s.target_params) =
           [s0.target_params] ∧
       (statesAfter cfg [s0] (fun t => [b t]) 2).map (fun s => s.target_params) =
         (statesAfter cfg [s0] (fun t => [b t]) 2).map (fun s => s.params)) := by
  constructor
  · intro cfg states batches i h hs _
    rw [get_sgd_step_fst cfg states batches i h hs]
    simp only [periodic_update]
  · intro cfg s0 b hP h0
    constructor
    · simp [statesAfter, sgd_step, periodic_update, hP, h0]
    · simp [statesAfter, sgd_step, periodic_update, hP, h0]

/-- Witness for C1 at the concrete configuration `cfgA` (period 2),
state `stA` (`steps = 0`) and batch schedule `t ↦ t`. -/
theorem target_sync_exact_witness :
    (0 < cfgA.target_update_period ∧
      ((sgd_step cfgA [stA] [(5 : ℚ)]).get ⟨0, by decide⟩).1.target_params =
        (if ((([stA].get ⟨0, by decide⟩ : TrainingState (List ℚ)).steps + 1) %
              cfgA.target_update_period = 0)
         then ((sgd_step cfgA [stA] [(5 : ℚ)]).get ⟨0, by decide⟩).1.params
         else ([stA].get ⟨0, by decide⟩ : TrainingState (List ℚ)).target_params)) ∧
    (cfgA.target_update_period = 2 ∧ stA.steps = 0 ∧
      ((statesAfter cfgA [stA] (fun t => [(t : ℚ)]) 1).map (fun s => s.target_params) =
          [stA.target_params] ∧
       (statesAfter cfgA [stA] (fun t => [(t : ℚ)]) 2).map (fun s => s.target_params) =
         (statesAfter cfgA [stA] (fun t => [(t : ℚ)]) 2).map (fun s => s.params))) :=
  ⟨⟨by decide, target_sync_exact.1 cfgA [stA] [(5 : ℚ)] 0 (by decide) (by decide) (by decide)⟩,
   rfl, rfl, target_sync_exact.2 cfgA stA (fun t => (t : ℚ)) rfl rfl⟩

/-- C2: each internal SGD step increments the `steps` field by exactly
1, and after `M` external `step()` calls on a freshly constructed
learner with `num_sgd_steps_per_step = K ≥ 1` (each call consuming one
well-formed data item, i.e. K sub-batches sharded over the devices),
every replica's `steps` equals `M * K`. -/
theorem steps_equal_M_times_K {B O : Type} :
    (∀ (cfg : LearnerConfig B O) (states : List (TrainingState O)) (batches : List B)
       (i : Nat) (h : i < (sgd_step cfg states batches).length)
       (hs : i < states.length),
       ((sgd_step cfg states batches).get ⟨i, h⟩).1.steps =
         (states.get ⟨i, hs⟩).steps + 1) ∧
    (∀ (cfg : LearnerConfig B O) (key : RngKey) (items : List (DataItem B × ℚ)),
       1 ≤ cfg.num_sgd_steps_per_step →
       (∀ it ∈ items, wfData cfg cfg.numDevices it.1) →
       ∀ s ∈ (runSteps cfg (initialLearner cfg key) items).1.state,
         s.steps = items.length * cfg.num_sgd_steps_per_step) := by
  constructor
  · intro cfg states batches i h hs
    rw [get_sgd_step_fst cfg states batches i h hs]
  · intro cfg key items _hK hwf s hs
    obtain ⟨hl, h0⟩ := initialLearner_state cfg key
    have hwf' : ∀ it ∈ items, wfData cfg (initialLearner cfg key).state.length it.1 := by
      intro it hit; rw [hl]; exact hwf it hit
    have := (runSteps_state cfg items (initialLearner cfg key) 0 h0 hwf').2 s hs
    omega

/-- Witness for C2: two external steps on `cfgA` (K = 1, 2 devices)
leave every replica at `steps = 2 * 1`. -/
theorem steps_equal_M_times_K_witness :
    (1 ≤ cfgA.num_sgd_steps_per_step ∧
     (∀ it ∈ [(dItemA, (1 : ℚ)), (dItemB, 2)], wfData cfgA cfgA.numDevices it.1)) ∧
    (∀ s ∈ (runSteps cfgA (initialLearner cfgA (RngKey.root 3))
        [(dItemA, (1 : ℚ)), (dItemB, 2)]).1.state,
      s.steps = [(dItemA, (1 : ℚ)), (dItemB, 2)].length * cfgA.num_sgd_steps_per_step) :=
  ⟨⟨by decide, by decide⟩,
   steps_equal_M_times_K.2 cfgA (RngKey.root 3) [(dItemA, (1 : ℚ)), (dItemB, 2)]
     (by decide) (by decide)⟩

theorem head?_replicate {α : Type} (n : Nat) (x : α) (h : 0 < n) :
    (List.replicate n x).head? = some x := by
  cases n with
  | zero => omega
  | succ m => rfl

/-- C3: `restore(save(·))` is the identity on the replicated training
state: for a learner whose replicas all hold the state `s` (the
replication invariant), `save` extracts exactly `s` (the replica-0
copy), restoring it reproduces the original replicated state on every
replica, and a subsequent external step continues the `steps` numbering
from `s.steps` (adding `num_sgd_steps_per_step`) instead of resetting
it. -/
theorem save_restore_roundtrip {B O : Type} (cfg : LearnerConfig B O)
    (L : Learner O) (s : TrainingState O)
    (hrep : L.state = List.replicate cfg.numDevices s)
    (hd : 0 < cfg.numDevices) :
    save L = some s ∧
    (save L).map (fun t => (restore cfg L t).state) = some L.state ∧
    (∀ u ∈ (restore cfg L s).state, u.steps = s.steps) ∧
    (∀ (d : DataItem B) (now : ℚ), wfData cfg cfg.numDevices d →
      ∀ u ∈ (learnerStep cfg (restore cfg L s) d now).learner.state,
        u.steps = s.steps + cfg.num_sgd_steps_per_step) := by
  have hsave : save L = some s := by
    rw [save, get_from_first_device, hrep, head?_replicate cfg.numDevices s hd]
  have hstate : (restore cfg L s).state = L.state := by
    rw [restore, hrep, replicate_in_all_devices]
  refine ⟨hsave, ?_, ?_, ?_⟩
  · rw [hsave]; show some (restore cfg L s).state = some L.state; rw [hstate]
  · intro u hu
    rw [hstate, hrep] at hu
    rw [List.eq_of_mem_replicate hu]
  · intro d now hwf u hu
    have hlen : (restore cfg L s).state.length = cfg.numDevices := by
      rw [restore, replicate_in_all_devices, List.length_replicate]
    have hsteps : ∀ u ∈ (restore cfg L s).state, u.steps = s.steps := by
      intro u hu
      rw [restore, replicate_in_all_devices] at hu
      rw [List.eq_of_mem_replicate hu]
    exact (learnerStep_state cfg (restore cfg L s) d now s.steps hsteps
      (by rw [hlen]; exact hwf)).2 u hu

/-- Witness for C3 at a concrete two-device learner. -/
theorem save_restore_roundtrip_witness :
    ((Learner.mk (List.replicate cfgA.numDevices stA) none).state =
        List.replicate cfgA.numDevices stA ∧ 0 < cfgA.numDevices) ∧
    save (Learner.mk (List.replicate cfgA.numDevices stA) none) = some stA ∧
    (save (Learner.mk (List.replicate cfgA.numDevices stA) none)).map
        (fun t => (restore cfgA (Learner.mk (List.replicate cfgA.numDevices stA) none) t).state) =
      some (Learner.mk (List.replicate cfgA.numDevices stA) none).state :=
  ⟨⟨rfl, by decide⟩,
   (save_restore_roundtrip cfgA (Learner.mk (List.replicate cfgA.numDevices stA) none)
      stA rfl (by decide)).1,
   (save_restore_roundtrip cfgA (Learner.mk (List.replicate cfgA.numDevices stA) none)
      stA rfl (by decide)).2.1⟩

theorem length_statesAfter {B O : Type} (cfg : LearnerConfig B O)
    (states : List (TrainingState O)) (sched : Nat → List B)
    (halign : ∀ t, (sched t).length = states.length) (t : Nat) :
    (statesAfter cfg states sched t).length = states.length := by
  induction t with
  | zero => rfl
  | succ t ih =>
    show ((sgd_step cfg (statesAfter cfg states sched t) (sched t)).map Prod.fst).length =
      states.length
    rw [List.length_map, length_sgd_step, ih, halign t]
    omega

theorem statesAfter_rng_key {B O : Type} (cfg : LearnerConfig B O)
    (states : List (TrainingState O)) (sched : Nat → List B)
    (halign : ∀ t, (sched t).length = states.length)
    (i : Nat) (hi : i < states.length) (t : Nat)
    (ht : i < (statesAfter cfg states sched t).length) :
    ((statesAfter cfg states sched t).get ⟨i, ht⟩).rng_key =
      nextChain ((states.get ⟨i, hi⟩).rng_key) t := by
  induction t with
  | zero => rfl
  | succ t ih =>
    have hlen := length_statesAfter cfg states sched halign t
    have ht' : i < (statesAfter cfg states sched t).length := by rw [hlen]; omega
    have hstep : i < (sgd_step cfg (statesAfter cfg states sched t) (sched t)).length := by
      rw [length_sgd_step, hlen, halign t]; omega
    show (((sgd_step cfg (statesAfter cfg states sched t) (sched t)).map Prod.fst).get
        ⟨i, ht⟩).rng_key = _
    have : ((sgd_step cfg (statesAfter cfg states sched t) (sched t)).map Prod.fst).get
        ⟨i, ht⟩ = ((sgd_step cfg (statesAfter cfg states sched t) (sched t)).get
          ⟨i, hstep⟩).1 := by
      simp
    rw [this, get_sgd_step_fst cfg _ _ i hstep ht']
    show (splitKey ((statesAfter cfg states sched t).get ⟨i, ht'⟩).rng_key).1 = _
    rw [ih ht', splitKey, nextChain]

theorem depth_nextChain (k : RngKey) (t : Nat) :
    (nextChain k t).depth = k.depth + t := by
  induction t with
  | zero => rfl
  | succ t ih => show (RngKey.sub _ 2 0).depth = _; rw [RngKey.depth, ih]; omega

/-- C4: no RNG seed is ever consumed twice.  Along any sequence of
internal steps (any batch schedule, any replica `i`), the key consumed
at step `t` — component 1 of splitting the state's `rng_key`, used only
for that invocation's loss evaluation, while component 0 becomes the new
state's key — differs from the key consumed at any other step `t' ≠ t`,
and the splitting is deterministic (the consumed key is exactly
`sub (nextChain k₀ t) 2 1` of the initial key `k₀`). -/
theorem rng_seed_no_reuse {B O : Type} (cfg : LearnerConfig B O)
    (states : List (TrainingState O)) (sched : Nat → List B)
    (halign : ∀ t, (sched t).length = states.length)
    (i : Nat) (hi : i < states.length) (t t' : Nat)
    (ht : i < (statesAfter cfg states sched t).length)
    (ht' : i < (statesAfter cfg states sched t').length) :
    stepConsumedKey ((statesAfter cfg states sched t).get ⟨i, ht⟩) =
      RngKey.sub (nextChain ((states.get ⟨i, hi⟩).rng_key) t) 2 1 ∧
    (t ≠ t' →
      stepConsumedKey ((statesAfter cfg states sched t).get ⟨i, ht⟩) ≠
        stepConsumedKey ((statesAfter cfg states sched t').get ⟨i, ht'⟩)) := by
  have he : stepConsumedKey ((statesAfter cfg states sched t).get ⟨i, ht⟩) =
      RngKey.sub (nextChain ((states.get ⟨i, hi⟩).rng_key) t) 2 1 := by
    rw [stepConsumedKey, statesAfter_rng_key cfg states sched halign i hi t ht, splitKey]
  have he' : stepConsumedKey ((statesAfter cfg states sched t').get ⟨i, ht'⟩) =
      RngKey.sub (nextChain ((states.get ⟨i, hi⟩).rng_key) t') 2 1 := by
    rw [stepConsumedKey, statesAfter_rng_key cfg states sched halign i hi t' ht', splitKey]
  refine ⟨he, fun hne heq => hne ?_⟩
  rw [he, he'] at heq
  have hd := congrArg RngKey.depth heq
  simp only [RngKey.depth, depth_nextChain] at hd
  omega

/-- Witness for C4: on `cfgA` with a single replica, the keys consumed
at steps 2 and 5 differ. -/
theorem rng_seed_no_reuse_witness :
    (∀ t : Nat, ((fun _ => [(3 : ℚ)]) t : List ℚ).length = [stA].length) ∧
    stepConsumedKey ((statesAfter cfgA [stA] (fun _ => [(3 : ℚ)]) 2).get
        ⟨0, by decide⟩) ≠
      stepConsumedKey ((statesAfter cfgA [stA] (fun _ => [(3 : ℚ)]) 5).get
        ⟨0, by decide⟩) :=
  ⟨fun _ => rfl,
   (rng_seed_no_reuse cfgA [stA] (fun _ => [(3 : ℚ)]) (fun _ => rfl) 0 (by decide)
      2 5 (by decide) (by decide)).2 (by decide)⟩

theorem lookup_updateMetric (m : List (String × ℚ)) (k : String) (v : ℚ) :
    lookupMetric (updateMetric m k v) k = some v := by
  induction m with
  | nil => simp [updateMetric, lookupMetric]
  | cons p m ih =>
    by_cases hp : p.1 = k
    · simp [updateMetric, lookupMetric, hp]
    · by_cases hm : m.any (fun q => q.1 = k)
      · have ih' := ih
        rw [updateMetric, if_pos hm] at ih'
        rw [updateMetric]
        rw [if_pos (by simp [List.any_cons, hm])]
        simpa [lookupMetric, hp] using ih'
      · have ih' := ih
        rw [updateMetric, if_neg hm] at ih'
        rw [updateMetric]
        rw [if_neg (by simp [List.any_cons, hm, hp])]
        simpa [lookupMetric, hp] using ih'

/-- C5: in every internal step the loss and the gradients are averaged
across all execution replicas before the optimizer update: starting from
identically replicated states, every replica's new `params` are obtained
by applying the optimizer to the replica-mean gradients `pmeanGrads`,
the `total_loss` each replica records is the replica-mean loss
`pmeanLoss`, and consequently all replicas hold identical
`TrainingState` values after the update (the replication invariant is
preserved), even though their batches differ. -/
theorem pmean_preserves_replica_sync {B O : Type} (cfg : LearnerConfig B O)
    (s : TrainingState O) (n : Nat) (batches : List B)
    (hb : batches.length = n) :
    (∀ i j (hi : i < (sgd_step cfg (List.replicate n s) batches).length)
       (hj : j < (sgd_step cfg (List.replicate n s) batches).length),
       ((sgd_step cfg (List.replicate n s) batches).get ⟨i, hi⟩).1 =
         ((sgd_step cfg (List.replicate n s) batches).get ⟨j, hj⟩).1) ∧
    (∀ i (hi : i < (sgd_step cfg (List.replicate n s) batches).length),
       ((sgd_step cfg (List.replicate n s) batches).get ⟨i, hi⟩).1.params =
         apply_updates s.params
           (cfg.optUpdate (pmeanGrads cfg (List.replicate n s) batches) s.opt_state).1 ∧
       lookupMetric
         ((sgd_step cfg (List.replicate n s) batches).get ⟨i, hi⟩).2.metrics
         "total_loss" = some (pmeanLoss cfg (List.replicate n s) batches)) := by
  have hlen : (sgd_step cfg (List.replicate n s) batches).length = n := by
    rw [length_sgd_step, List.length_replicate, hb]; omega
  have hget : ∀ i (hi : i < (sgd_step cfg (List.replicate n s) batches).length),
      ((sgd_step cfg (List.replicate n s) batches).get ⟨i, hi⟩).1 =
      { params := apply_updates s.params
          (cfg.optUpdate (pmeanGrads cfg (List.replicate n s) batches) s.opt_state).1,
        target_params := periodic_update
          (apply_updates s.params
            (cfg.optUpdate (pmeanGrads cfg (List.replicate n s) batches) s.opt_state).1)
          s.target_params (s.steps + 1) cfg.target_update_period,
        opt_state := (cfg.optUpdate (pmeanGrads cfg (List.replicate n s) batches)
          s.opt_state).2,
        steps := s.steps + 1,
        rng_key := (splitKey s.rng_key).1 } := by
    intro i hi
    have hs : i < (List.replicate n s).length := by
      rw [List.length_replicate]; omega
    rw [get_sgd_step_fst cfg _ _ i hi hs]
    simp
  refine ⟨fun i j hi hj => by rw [hget i hi, hget j hj], fun i hi => ⟨?_, ?_⟩⟩
  · rw [hget i hi]
  · have hs : i < (List.replicate n s).length := by
      rw [List.length_replicate]; omega
    have hextra : ((sgd_step cfg (List.replicate n s) batches).get ⟨i, hi⟩).2.metrics =
        updateMetric
          ((cfg.lossGrad ((List.replicate n s).get ⟨i, hs⟩).params
            ((List.replicate n s).get ⟨i, hs⟩).target_params
            (batches.get ⟨i, by rw [hb]; omega⟩)
            (stepConsumedKey ((List.replicate n s).get ⟨i, hs⟩))).1.2).metrics
          "total_loss" (pmeanLoss cfg (List.replicate n s) batches) := by
      simp [sgd_step, List.getElem_zipWith]
    rw [hextra, lookup_updateMetric]

/-- Witness for C5: two replicas of `stA` with different batches end in
identical states. -/
theorem pmean_preserves_replica_sync_witness :
    ([(10 : ℚ), 20].length = 2) ∧
    ((sgd_step cfgA (List.replicate 2 stA) [(10 : ℚ), 20]).get ⟨0, by decide⟩).1 =
      ((sgd_step cfgA (List.replicate 2 stA) [(10 : ℚ), 20]).get ⟨1, by decide⟩).1 :=
  ⟨rfl, (pmean_preserves_replica_sync cfgA stA 2 [(10 : ℚ), 20] rfl).1 0 1
    (by decide) (by decide)⟩

/-- C6: with no replay client configured, priority submission degrades
to a no-op and no store mutation is ever attempted: the worker body
`update_priorities` returns without calling `mutate_priorities`, a
single `step()` neither enqueues an update nor issues a mutation, and
any number of `step()` calls issues an empty list of mutations.  (The
model is total, so no call can raise.) -/
theorem no_replay_client_no_mutation {B O : Type} (cfg : LearnerConfig B O)
    (hc : cfg.hasReplayClient = false) :
    (∀ ru : ReverbUpdate, update_priorities cfg ru = none) ∧
    (∀ (L : Learner O) (d : DataItem B) (now : ℚ),
       (learnerStep cfg L d now).enqueuedUpdate = none ∧
       (learnerStep cfg L d now).storeMutation = none) ∧
    (∀ (L : Learner O) (items : List (DataItem B × ℚ)),
       (runSteps cfg L items).2 = []) := by
  have hup : ∀ ru : ReverbUpdate, update_priorities cfg ru = none := by
    intro ru; rw [update_priorities, hc]; simp
  have hstep : ∀ (L : Learner O) (d : DataItem B) (now : ℚ),
      (learnerStep cfg L d now).enqueuedUpdate = none ∧
      (learnerStep cfg L d now).storeMutation = none := by
    intro L d now
    constructor <;> simp [learnerStep, hc]
  refine ⟨hup, hstep, ?_⟩
  intro L items
  induction items generalizing L with
  | nil => rfl
  | cons it rest ih =>
    show ((learnerStep cfg L it.1 it.2).storeMutation.toList) ++
      (runSteps cfg (learnerStep cfg L it.1 it.2).learner rest).2 = []
    rw [(hstep L it.1 it.2).2, ih]
    rfl

/-- Witness for C6: 100 `step()` calls on `cfgB` (no replay client)
issue no store mutation. -/
theorem no_replay_client_no_mutation_witness :
    cfgB.hasReplayClient = false ∧
    (runSteps cfgB (initialLearner cfgB (RngKey.root 1))
      (List.replicate 100 (dItemA, (1 : ℚ)))).2 = [] :=
  ⟨rfl, (no_replay_client_no_mutation cfgB rfl).2.2
    (initialLearner cfgB (RngKey.root 1)) (List.replicate 100 (dItemA, (1 : ℚ)))⟩

/-- C7: the reported `steps_per_second` is `num_sgd_steps_per_step / E`
when the elapsed time `E = now - t` since the previous call is positive,
and `0` when `E = 0` or on the very first call (no previous timestamp),
rather than a division fault; the value attached to the logged metrics
is exactly this quantity. -/
theorem steps_per_second_guarded {B O : Type} (cfg : LearnerConfig B O)
    (L : Learner O) (d : DataItem B) (now : ℚ) :
    (L.timestamp = none → (learnerStep cfg L d now).stepsPerSecond = 0) ∧
    (∀ t : ℚ, L.timestamp = some t → t ≠ 0 → 0 < now - t →
      (learnerStep cfg L d now).stepsPerSecond =
        (cfg.num_sgd_steps_per_step : ℚ) / (now - t)) ∧
    (∀ t : ℚ, L.timestamp = some t → t ≠ 0 → now - t = 0 →
      (learnerStep cfg L d now).stepsPerSecond = 0) ∧
    (∀ m, (learnerStep cfg L d now).loggedMetrics = some m →
      lookupMetric m "steps_per_second" =
        some (learnerStep cfg L d now).stepsPerSecond) := by
  refine ⟨?_, ?_, ?_, ?_⟩
  · intro h; simp [learnerStep, h]
  · intro t ht ht0 hE
    have : now - t ≠ 0 := by exact ne_of_gt hE
    simp [learnerStep, ht, ht0, this]
  · intro t ht ht0 hE
    simp [learnerStep, ht, ht0, hE]
  · intro m hm
    simp only [learnerStep] at hm ⊢
    cases hh : get_from_first_device
        (process_multiple_batches cfg L.state d.device).2 with
    | none => rw [hh] at hm; simp at hm
    | some e =>
      rw [hh] at hm
      have hm' : updateMetric e.metrics "steps_per_second"
          (if (match L.timestamp with
               | none => (0 : ℚ)
               | some t => if t = 0 then 0 else now - t) = 0 then (0 : ℚ)
           else (cfg.num_sgd_steps_per_step : ℚ) /
             (match L.timestamp with
              | none => (0 : ℚ)
              | some t => if t = 0 then 0 else now - t)) = m := by
        exact Option.some_injective _ hm
      rw [← hm']
      exact lookup_updateMetric e.metrics "steps_per_second" _

/-- Witness for C7 at `cfgA`: first call reports 0; a call with
elapsed time 2 reports 1/2; a call with elapsed 0 reports 0; the logged
metrics carry the value. -/
theorem steps_per_second_guarded_witness :
    ((learnerStep cfgA (Learner.mk [stA] none) dItemA 5).stepsPerSecond = 0) ∧
    ((learnerStep cfgA (Learner.mk [stA] (some 3)) dItemA 5).stepsPerSecond =
      (cfgA.num_sgd_steps_per_step : ℚ) / (5 - 3)) ∧
    ((learnerStep cfgA (Learner.mk [stA] (some 5)) dItemA 5).stepsPerSecond = 0) :=
  ⟨(steps_per_second_guarded cfgA (Learner.mk [stA] none) dItemA 5).1 rfl,
   (steps_per_second_guarded cfgA (Learner.mk [stA] (some 3)) dItemA 5).2.1 3 rfl
     (by norm_num) (by norm_num),
   (steps_per_second_guarded cfgA (Learner.mk [stA] (some 5)) dItemA 5).2.2.1 5 rfl
     (by norm_num) (by norm_num)⟩

/-- C8: learner construction splits the input key into exactly three
pairwise-distinct sub-keys, uses sub-key 0 to initialize `params`,
sub-key 1 to initialize `target_params` (an independent draw from the
same initializer, not a copy), stores sub-key 2 as the live `rng_key`,
and starts `steps` at 0, on every replica. -/
theorem init_three_way_split {B O : Type} (cfg : LearnerConfig B O) (key : RngKey) :
    (RngKey.sub key 3 0 ≠ RngKey.sub key 3 1 ∧
     RngKey.sub key 3 0 ≠ RngKey.sub key 3 2 ∧
     RngKey.sub key 3 1 ≠ RngKey.sub key 3 2) ∧
    (∀ s ∈ (initialLearner cfg key).state,
      s.params = cfg.networkInit (RngKey.sub key 3 0) ∧
      s.target_params = cfg.networkInit (RngKey.sub key 3 1) ∧
      s.opt_state = cfg.optInitFn (cfg.networkInit (RngKey.sub key 3 0)) ∧
      s.steps = 0 ∧
      s.rng_key = RngKey.sub key 3 2) := by
  refine ⟨⟨by simp, by simp, by simp⟩, ?_⟩
  intro s hs
  have := List.eq_of_mem_replicate
    (by simpa [initialLearner, replicate_in_all_devices] using hs)
  rw [this]
  exact ⟨rfl, rfl, rfl, rfl, rfl⟩

/-- Witness for C8 at `cfgA` with seed key `root 9`: the replica-0
state of the freshly constructed learner. -/
theorem init_three_way_split_witness :
    (TrainingState.mk [(1 : ℚ)] [(1 : ℚ)] [(1 : ℚ)] 0
        (RngKey.sub (RngKey.root 9) 3 2) ∈
      (initialLearner cfgA (RngKey.root 9)).state) ∧
    ((TrainingState.mk [(1 : ℚ)] [(1 : ℚ)] [(1 : ℚ)] 0
        (RngKey.sub (RngKey.root 9) 3 2) : TrainingState (List ℚ)).params =
      cfgA.networkInit (RngKey.sub (RngKey.root 9) 3 0) ∧
     (TrainingState.mk [(1 : ℚ)] [(1 : ℚ)] [(1 : ℚ)] 0
        (RngKey.sub (RngKey.root 9) 3 2) : TrainingState (List ℚ)).target_params =
      cfgA.networkInit (RngKey.sub (RngKey.root 9) 3 1) ∧
     (TrainingState.mk [(1 : ℚ)] [(1 : ℚ)] [(1 : ℚ)] 0
        (RngKey.sub (RngKey.root 9) 3 2) : TrainingState (List ℚ)).opt_state =
      cfgA.optInitFn (cfgA.networkInit (RngKey.sub (RngKey.root 9) 3 0)) ∧
     (TrainingState.mk [(1 : ℚ)] [(1 : ℚ)] [(1 : ℚ)] 0
        (RngKey.sub (RngKey.root 9) 3 2) : TrainingState (List ℚ)).steps = 0 ∧
     (TrainingState.mk [(1 : ℚ)] [(1 : ℚ)] [(1 : ℚ)] 0
        (RngKey.sub (RngKey.root 9) 3 2) : TrainingState (List ℚ)).rng_key =
      RngKey.sub (RngKey.root 9) 3 2) :=
  ⟨by decide,
   (init_three_way_split cfgA (RngKey.root 9)).2
     (TrainingState.mk [(1 : ℚ)] [(1 : ℚ)] [(1 : ℚ)] 0
       (RngKey.sub (RngKey.root 9) 3 2)) (by decide)⟩

/-- C10: `get_variables(names)` returns the replica-0 parameters as a
single-element list regardless of the `names` argument: the result is
the same for any two name lists, and equals `[params of replica 0]`. -/
theorem get_variables_ignores_names {O : Type} (L : Learner O)
    (names names' : List String) :
    get_variables L names = get_variables L names' ∧
    (∀ s, L.state.head? = some s → get_variables L names = some [s.params]) := by
  refine ⟨rfl, ?_⟩
  intro s hs
  rw [get_variables, get_from_first_device, hs]
  rfl

/-- Witness for C10: a one-replica learner returns `[stA.params]` both
for `["policy"]` and for `[]`. -/
theorem get_variables_ignores_names_witness :
    ((Learner.mk [stA] none).state.head? = some stA) ∧
    get_variables (Learner.mk [stA] none) ["policy"] =
      get_variables (Learner.mk [stA] none) [] ∧
    get_variables (Learner.mk [stA] none) ["policy"] = some [stA.params] :=
  ⟨rfl, (get_variables_ignores_names (Learner.mk [stA] none) ["policy"] []).1,
   (get_variables_ignores_names (Learner.mk [stA] none) ["policy"] []).2 stA rfl⟩

theorem filterMap_of_all_some {α β : Type} (l : List α) (f : α → Option β)
    (g : α → β) (h : ∀ x ∈ l, f x = some (g x)) : l.filterMap f = l.map g := by
  induction l with
  | nil => rfl
  | cons a l ih =>
    rw [List.filterMap_cons, h a (List.mem_cons_self a l), List.map_cons,
      ih (fun x hx => h x (List.mem_cons_of_mem a hx))]

theorem lookupMetric_cons (a : String × ℚ) (l : List (String × ℚ)) (k : String) :
    lookupMetric (a :: l) k = if a.1 = k then some a.2 else lookupMetric l k := by
  by_cases h : a.1 = k <;> simp [lookupMetric, List.find?_cons, h]

theorem map_overwrite_id (m : List (String × ℚ)) (k : String) (v : ℚ)
    (h : ¬ m.any (fun q => q.1 = k)) :
    m.map (fun p => if p.1 = k then (k, v) else p) = m := by
  induction m with
  | nil => rfl
  | cons q m ih =>
    have hq : ¬ (q.1 = k) := by
      intro hh; exact h (by simp [List.any_cons, hh])
    have hm : ¬ m.any (fun q => q.1 = k) := by
      intro hh; exact h (by simp [List.any_cons, hh])
    rw [List.map_cons, if_neg hq, ih hm]

theorem lookup_append_ne (m : List (String × ℚ)) (k k' : String) (v : ℚ)
    (h : k' ≠ k) : lookupMetric (m ++ [(k, v)]) k' = lookupMetric m k' := by
  induction m with
  | nil =>
    show lookupMetric [(k, v)] k' = lookupMetric [] k'
    rw [lookupMetric_cons, if_neg (fun hh => h hh.symm)]
  | cons q m ih =>
    rw [List.cons_append, lookupMetric_cons, lookupMetric_cons, ih]

theorem lookup_updateMetric_ne (m : List (String × ℚ)) (k k' : String) (v : ℚ)
    (h : k' ≠ k) : lookupMetric (updateMetric m k v) k' = lookupMetric m k' := by
  by_cases hm : m.any (fun q => q.1 = k)
  · rw [updateMetric, if_pos hm]
    clear hm
    induction m with
    | nil => rfl
    | cons p m ih =>
      rw [List.map_cons, lookupMetric_cons, lookupMetric_cons]
      by_cases hp : p.1 = k
      · have h2 : ¬ ((if p.1 = k then (k, v) else p).1 = k') := by
          rw [if_pos hp]; exact fun hh => h hh.symm
        rw [if_neg h2, if_neg (by rw [hp]; exact fun hh => h hh.symm), ih]
      · rw [if_neg hp]
        by_cases hpk : p.1 = k'
        · rw [if_pos hpk, if_pos hpk]
        · rw [if_neg hpk, if_neg hpk, ih]
  · rw [updateMetric, if_neg hm]
    exact lookup_append_ne m k k' v h

theorem lookup_postprocessMetricsAux (ms : List (List (String × ℚ)))
    (tail : List (String × ℚ)) (j0 : Nat) (nm : String) (j : Nat)
    (hj : j < tail.length) (hnm : (tail.get ⟨j, hj⟩).1 = nm)
    (hnd : (tail.map Prod.fst).Nodup) :
    lookupMetric (postprocessMetricsAux ms j0 tail) nm =
      some (meanQ (ms.filterMap (fun mm => (mm.get? (j0 + j)).map Prod.snd))) := by
  induction tail generalizing j0 j with
  | nil => exact absurd hj (by simp)
  | cons p tail ih =>
    obtain ⟨nm0, v0⟩ := p
    cases j with
    | zero =>
      have : nm0 = nm := hnm
      rw [postprocessMetricsAux, lookupMetric_cons, if_pos this]
      simp
    | succ jj =>
      have hjj : jj < tail.length := by
        have := hj; rw [List.length_cons] at this; omega
      have hnm' : (tail.get ⟨jj, hjj⟩).1 = nm := hnm
      have hmem : nm ∈ tail.map Prod.fst := by
        rw [← hnm']
        exact List.mem_map_of_mem Prod.fst (List.get_mem tail jj hjj)
      have hne : ¬ (nm0 = nm) := by
        intro hh
        rw [List.map_cons, List.nodup_cons] at hnd
        exact hnd.1 (hh ▸ hmem)
      rw [postprocessMetricsAux, lookupMetric_cons, if_neg hne]
      have harith : j0 + 1 + jj = j0 + (jj + 1) := by omega
      rw [← harith]
      exact ih (j0 + 1) jj hjj hnm'
        (by rw [List.map_cons, List.nodup_cons] at hnd; exact hnd.2)

theorem postprocess_aux_priorities (r : List LossExtra) (hne : r ≠ [])
    (hall : ∀ e ∈ r, e.reverb_priorities.isSome) :
    (postprocess_aux r).reverb_priorities =
      some ((r.filterMap (fun e => e.reverb_priorities)).flatten) := by
  show stackPriorities (r.map (fun e => e.reverb_priorities)) = _
  rw [stackPriorities]
  have h1 : (r.map (fun e => e.reverb_priorities)).filterMap id =
      r.filterMap (fun e => e.reverb_priorities) := by
    rw [List.filterMap_map]; rfl
  cases r with
  | nil => exact absurd rfl hne
  | cons e r' =>
    obtain ⟨x, hx⟩ := Option.isSome_iff_exists.mp
      (hall e (List.mem_cons_self e r'))
    simp only [h1]
    rw [List.filterMap_cons, hx]
    rfl

/-- C9 counterexample: with two replicas reporting different values for
the metric `"m"` (10 on replica 0, 20 on replica 1), the value the code
logs for `"m"` is replica 0's sub-step mean (10), not the mean across
both the replica axis and the sub-steps asserted by the claim (15). -/
theorem metrics_not_replica_averaged_counterexample :
    ¬ ((learnerStep cfgA (Learner.mk (List.replicate 2 stA) none) dItemA 5).loggedMetrics.map
        (fun m => lookupMetric m "m") =
      some (some (specMetricMean
        (rawMetricsGrid cfgA (List.replicate 2 stA) dItemA.device) "m"))) := by
  intro h
  have h1 : (learnerStep cfgA (Learner.mk (List.replicate 2 stA) none)
        dItemA 5).loggedMetrics.map (fun m => lookupMetric m "m") =
      some (some (meanQ [10])) := rfl
  have h2 : specMetricMean
      (rawMetricsGrid cfgA (List.replicate 2 stA) dItemA.device) "m" =
      meanQ [10, 20] := rfl
  rw [h1, h2] at h
  have h3 : meanQ [10] = meanQ [10, 20] :=
    Option.some_injective _ (Option.some_injective _ h)
  rw [meanQ, meanQ] at h3
  simp only [List.sum_cons, List.sum_nil, List.length_cons, List.length_nil] at h3
  norm_num at h3

/-- C9 as amended: after a multi-sub-step external step (replay client
configured, priorities present at every cell), the per-sample
priorities of the K sub-steps and all replicas are flattened into one
array preserving order — replica-major at the outer level, sub-step
order within each replica, sample order within each sub-step — and
zipped with the flattened keys in the single store mutation; each
logged metric (other than the attached `steps_per_second`) is reduced
to one scalar by arithmetic mean across the K sub-steps of replica 0's
recorded values (not across the replica axis; only `total_loss`, being
pmean-averaged before recording, is effectively replica-averaged). -/
theorem priorities_flatten_metrics_substep_mean {B O : Type}
    (cfg : LearnerConfig B O) (L : Learner O) (d : DataItem B) (now : ℚ)
    (hrc : cfg.hasReplayClient = true)
    (hgne : (multiStepScan cfg L.state d.device).2 ≠ [])
    (hall : ∀ r ∈ (multiStepScan cfg L.state d.device).2,
      r ≠ [] ∧ ∀ e ∈ r, e.reverb_priorities.isSome) :
    (learnerStep cfg L d now).storeMutation =
      some (List.zip d.host.flatten
        (((multiStepScan cfg L.state d.device).2.map
          (fun r => (r.filterMap (fun e => e.reverb_priorities)).flatten)).flatten)) ∧
    (∀ r0, (multiStepScan cfg L.state d.device).2.head? = some r0 →
      ∀ m, (learnerStep cfg L d now).loggedMetrics = some m →
      ∀ (m0 : List (String × ℚ)) (rest0 : List (List (String × ℚ))),
        r0.map (fun e => e.metrics) = m0 :: rest0 →
        (m0.map Prod.fst).Nodup →
        ∀ (j : Nat) (hj : j < m0.length) (nm : String),
          (m0.get ⟨j, hj⟩).1 = nm → nm ≠ "steps_per_second" →
          lookupMetric m nm =
            some (meanQ ((r0.map (fun e => e.metrics)).filterMap
              (fun mm => (mm.get? j).map Prod.snd)))) := by
  have hrp : replicaPriorities
      ((multiStepScan cfg L.state d.device).2.map postprocess_aux) =
      some ((multiStepScan cfg L.state d.device).2.map
        (fun r => (r.filterMap (fun e => e.reverb_priorities)).flatten)) := by
    rw [replicaPriorities]
    have h1 : ((multiStepScan cfg L.state d.device).2.map postprocess_aux).filterMap
        (fun e => e.reverb_priorities) =
        (multiStepScan cfg L.state d.device).2.map
          (fun r => (r.filterMap (fun e => e.reverb_priorities)).flatten) := by
      rw [List.filterMap_map]
      exact filterMap_of_all_some _ _ _
        (fun r hr => postprocess_aux_priorities r (hall r hr).1 (hall r hr).2)
    simp only [h1]
    rw [if_neg (by simp [List.isEmpty_iff, hgne])]
  constructor
  · simp only [learnerStep, process_multiple_batches, hrc, if_true]
    rw [hrp]
    simp [update_priorities, hrc]
  · intro r0 hr0 m hm m0 rest0 hms hnd j hj nm hnm hsps
    have hex : (((multiStepScan cfg L.state d.device).2.map postprocess_aux)).head? =
        some (postprocess_aux r0) := by
      rw [List.head?_map, hr0]; rfl
    simp only [learnerStep, process_multiple_batches, get_from_first_device] at hm
    rw [hex] at hm
    have hm' := Option.some_injective _ hm
    rw [← hm', lookup_updateMetric_ne _ _ _ _ hsps]
    have hpp : (postprocess_aux r0).metrics =
        postprocessMetricsAux (r0.map (fun e => e.metrics)) 0 m0 := by
      show postprocessMetrics (r0.map (fun e => e.metrics)) = _
      rw [hms, postprocessMetrics]
    rw [hpp]
    have := lookup_postprocessMetricsAux (r0.map (fun e => e.metrics)) m0 0 nm j hj hnm hnd
    simpa using this

/-- Witness for the amended C9: with 2 replicas, K = 1, batches 10 and
20 and keys `[[1,2],[3,4]]`, the single store mutation pairs the keys
`[1,2,3,4]` with the priorities `[10, 11, 20, 21]` — replica-major,
sub-step order, then sample order. -/
theorem priorities_flatten_metrics_substep_mean_witness :
    (cfgA.hasReplayClient = true ∧
     (multiStepScan cfgA (Learner.mk (List.replicate 2 stA) none).state
        dItemA.device).2 ≠ [] ∧
     (∀ r ∈ (multiStepScan cfgA (Learner.mk (List.replicate 2 stA) none).state
        dItemA.device).2, r ≠ [] ∧ ∀ e ∈ r, e.reverb_priorities.isSome)) ∧
    (learnerStep cfgA (Learner.mk (List.replicate 2 stA) none)
        dItemA 5).storeMutation =
      some [((1 : Nat), (10 : ℚ)), (2, 10 + 1), (3, 20), (4, 20 + 1)] :=
  ⟨⟨rfl, by decide, by decide⟩, by
    have := (priorities_flatten_metrics_substep_mean cfgA
      (Learner.mk (List.replicate 2 stA) none) dItemA 5 rfl (by decide) (by decide)).1
    rw [this]
    rfl⟩

end LearningLib
